import Mathlib

/-!
Verification development for the calendar chat agent
(`calendar_chat.py`): a conversational front-end over a calendar
backend.  The Python source is shallowly embedded: dictionaries become
association lists over a JSON-like value type, the remote backend and
the completion oracle become environment parameters supplying the
response of each call (indexed by call order), instants are modelled as
seconds with the textual rendering of a timestamp abstracted to its
decimal form, and Python exceptions become an explicit `Except` layer.
-/

/-- Python exceptions that the embedded fragment can raise. -/
inductive PyErr where
  | keyError (k : String)
  | typeError (m : String)
  | attributeError (m : String)
deriving Repr, DecidableEq

/-- JSON-like Python values, as produced by `json.loads` and passed
around as dictionary entries.  Non-integral numerics keep their lexeme
(`numRaw`); dictionaries are association lists in insertion order. -/
inductive JVal where
  | str (s : String)
  | num (n : Int)
  | numRaw (lex : String)
  | bool (b : Bool)
  | null
  | arr (elems : List JVal)
  | obj (fields : List (String × JVal))

/-- A Python dictionary with string keys. -/
abbrev Obj := List (String × JVal)

/-- `d.get(k)`: first binding of `k` (dictionaries built by the
embedding carry no duplicate keys, mirroring Python). -/
def dGet (d : Obj) (k : String) : Option JVal :=
  match d with
  | [] => none
  | (k2, v) :: rest => if k2 = k then some v else dGet rest k

/-- `k in d` for a Python dictionary. -/
def hasKey (d : Obj) (k : String) : Bool :=
  (dGet d k).isSome

/-- `d[k] = v` on a key already present: replace the binding in place. -/
def setKey (d : Obj) (k : String) (v : JVal) : Obj :=
  d.map (fun p => if p.1 = k then (k, v) else p)

/-- Dictionary insertion: override an existing binding, else append
(used to give parsed JSON objects Python's last-value-wins,
first-position key semantics). -/
def dictInsert (d : Obj) (k : String) (v : JVal) : Obj :=
  if hasKey d k then setKey d k v else d ++ [(k, v)]

/-- Build a dictionary from parsed key/value pairs, later duplicates
overriding earlier ones as in Python. -/
def dictOfPairs (ps : List (String × JVal)) : Obj :=
  ps.foldl (fun d p => dictInsert d p.1 p.2) []

/-- The character `{` (kept out of string literals). -/
def lbrace : Char := Char.ofNat 123

/-- The character `}` (kept out of string literals). -/
def rbrace : Char := Char.ofNat 125

mutual

/-- Python `repr` of a JSON-like value (quotes use `'`). -/
def pyRepr : JVal → String
  | .str s => "\x27" ++ s ++ "\x27"
  | .num n => toString n
  | .numRaw lex => lex
  | .bool b => if b then "True" else "False"
  | .null => "None"
  | .arr xs => "[" ++ String.intercalate ", " (pyReprL xs) ++ "]"
  | .obj fs => String.singleton lbrace ++ String.intercalate ", " (pyReprF fs) ++ String.singleton rbrace

/-- `repr` of the elements of a Python list. -/
def pyReprL : List JVal → List String
  | [] => []
  | x :: xs => pyRepr x :: pyReprL xs

/-- `repr` of the entries of a Python dictionary. -/
def pyReprF : List (String × JVal) → List String
  | [] => []
  | (k, v) :: fs => ("\x27" ++ k ++ "\x27: " ++ pyRepr v) :: pyReprF fs

end

/-- Python `str()` of a value (as interpolated by an f-string):
a string renders as itself, other values via `repr`. -/
def pyStr : JVal → String
  | .str s => s
  | v => pyRepr v

/-- Python truthiness of a JSON-like value. -/
def truthy : JVal → Bool
  | .str s => !s.isEmpty
  | .num n => n != 0
  | .numRaw lex =>
      (lex.toList.takeWhile (fun c => c != 'e' && c != 'E')).any
        (fun c => c.isDigit && c != '0')
  | .bool b => b
  | .null => false
  | .arr xs => !xs.isEmpty
  | .obj fs => !fs.isEmpty

/-- Boolean test that `n` is an initial segment of `h`. -/
def leadsWith : List Char → List Char → Bool
  | [], _ => true
  | _ :: _, [] => false
  | a :: as, b :: bs => a == b && leadsWith as bs

/-- Boolean test that `n` occurs contiguously inside `h`. -/
def containsSeq (n : List Char) : List Char → Bool
  | [] => n.isEmpty
  | c :: rest => leadsWith n (c :: rest) || containsSeq n rest

/-- Python substring containment `needle in hay`. -/
def strContains (hay needle : String) : Bool :=
  containsSeq needle.toList hay.toList

/-- Python `s.lower()` (over the ASCII range the source exercises). -/
def lowerStr (s : String) : String :=
  (s.toList.map Char.toLower).asString

/-- Python `s.find(c)`: index of the first occurrence, if any. -/
def charFind (cs : List Char) (c : Char) : Option Nat :=
  match cs with
  | [] => none
  | x :: xs => if x == c then some 0 else (charFind xs c).map (fun i => i + 1)

/-- Python `s.rfind(c)`: index of the last occurrence, if any. -/
def charRfind (cs : List Char) (c : Char) : Option Nat :=
  match cs with
  | [] => none
  | x :: xs =>
    match charRfind xs c with
    | some i => some (i + 1)
    | none => if x == c then some 0 else none

/-- An instant: seconds since the epoch (the embedding of `datetime`
values; the backend's wall clock enters through the environment). -/
abbrev Instant := Nat

/-- Textual rendering of an instant, abstracting `str(datetime)` to an
injective decimal form. -/
def dtStr (t : Instant) : String := toString t

/-- One hour, in seconds (`timedelta(hours=1)`). -/
def oneHour : Nat := 3600

/-!  ## CalendarService (the gateway)

Each operation is embedded as a pure function of the backend's response
to the remote call it performs: `Except.error` is the `HttpError` branch
of the source, and the second component of each result collects the
lines the source would print (its local, non-raising error report).
-/

/-- `CalendarService.list_events`: returns the backend's items on
success; on `HttpError` logs the error and returns the empty list. -/
def list_events (resp : Except String (List Obj)) : List Obj × List String :=
  match resp with
  | .ok evs => (evs, [])
  | .error e => ([], ["An error occurred: " ++ e])

/-- The request body `CalendarService.create_event` builds for the
insert call. -/
def createBody (summary : JVal) (start_time end_time : Instant)
    (description : JVal) (location : JVal) : Obj :=
  [ ("summary", summary),
    ("location", location),
    ("description", description),
    ("start", .obj [("dateTime", .str (dtStr start_time)), ("timeZone", .str "UTC")]),
    ("end", .obj [("dateTime", .str (dtStr end_time)), ("timeZone", .str "UTC")]) ]

/-- `CalendarService.create_event`: builds the event body, performs the
insert, and on `HttpError` logs the error and returns the empty
dictionary. -/
def create_event (resp : Obj → Except String Obj) (summary : JVal)
    (start_time end_time : Instant) (description : JVal) : Obj × List String :=
  let body := createBody summary start_time end_time description (.str "")
  match resp body with
  | .ok ev => (ev, [])
  | .error e => ([], ["An error occurred: " ++ e])

/-- The field-overwrite loop of `CalendarService.update_event`:
`for key, value in kwargs.items(): if key in event: event[key] = value`. -/
def stepUpd (ev : Obj) (kv : String × JVal) : Obj :=
  if hasKey ev kv.1 then setKey ev kv.1 kv.2 else ev

def applyChanges (event : Obj) (changes : List (String × JVal)) : Obj :=
  changes.foldl stepUpd event

/-- `CalendarService.update_event`: fetch the event, overwrite the
fields named by `changes` that the fetched event already has, and send
the result back; on `HttpError` of either remote call, log and return
the empty dictionary. -/
def update_event (getResp : Except String Obj) (updResp : Obj → Except String Obj)
    (changes : List (String × JVal)) : Obj × List String :=
  match getResp with
  | .error e => ([], ["An error occurred: " ++ e])
  | .ok event =>
    match updResp (applyChanges event changes) with
    | .ok updated => (updated, [])
    | .error e => ([], ["An error occurred: " ++ e])

/-!  ## CalendarChatAgent.format_events -/

/-- The line `format_events` renders for one event, or the exception the
rendering raises: `event['start']` raises `KeyError` when the key is
absent and `AttributeError` when its value has no `.get`; slicing a
non-sliceable identifier raises `TypeError`. -/
def eventLine (event : Obj) : Except PyErr String :=
  match dGet event "start" with
  | none => .error (.keyError "start")
  | some sv =>
    match sv with
    | .obj st =>
      let start := match dGet st "dateTime" with
        | some v => v
        | none =>
          match dGet st "date" with
          | some v => v
          | none => JVal.null
      let summary := match dGet event "summary" with
        | some v => v
        | none => JVal.str "No title"
      let idPiece : Except PyErr String :=
        match dGet event "id" with
        | none => .ok ""
        | some (.str s) => .ok ((s.toList.take 8).asString)
        | some (.arr xs) => .ok (pyStr (.arr (xs.take 8)))
        | some _ => .error (.typeError "unsubscriptable")
      match idPiece with
      | .error e => .error e
      | .ok idp =>
        .ok ("- " ++ pyStr start ++ ": " ++ pyStr summary ++ " (ID: " ++ idp ++ "...)")
    | _ => .error (.attributeError "get")

/-- The lines of `format_events`, failing at the first event whose
rendering raises. -/
def formatLines : List Obj → Except PyErr (List String)
  | [] => .ok []
  | e :: rest =>
    match eventLine e with
    | .error err => .error err
    | .ok line =>
      match formatLines rest with
      | .error err => .error err
      | .ok lines => .ok (line :: lines)

/-- `CalendarChatAgent.format_events`: the fixed sentence on an empty
list, else one line per event joined by newlines. -/
def format_events (events : List Obj) : Except PyErr String :=
  if events.isEmpty then .ok "No upcoming events found."
  else
    match formatLines events with
    | .error err => .error err
    | .ok lines => .ok (String.intercalate "\n" lines)

/-- Whether rendering one event succeeds. -/
def lineOk (event : Obj) : Bool :=
  match eventLine event with
  | .ok _ => true
  | .error _ => false

/-- The line rendered for an event (junk on the raising events). -/
def eventLineStr (event : Obj) : String :=
  match eventLine event with
  | .ok s => s
  | .error _ => ""

/-!  ## A model of `json.loads`

A recursive-descent JSON reader over the character list, with fuel for
termination (fuel one larger than the input length never runs out on an
accepted input, since every recursive call first consumes a character).
Modelling gaps kept deliberately small: `\uXXXX` escapes and the
non-standard `NaN`/`Infinity` literals of Python's decoder are rejected,
and non-integral numbers keep their lexeme instead of a float value.
-/

/-- Skip JSON whitespace. -/
def skipWs : List Char → List Char
  | [] => []
  | c :: cs => if c == ' ' || c == '\n' || c == '\t' || c == '\r' then skipWs cs else c :: cs

/-- Body of a JSON string after the opening quote: the decoded
characters and the rest of the input. -/
def jStrBody : List Char → Option (List Char × List Char)
  | [] => none
  | c :: cs =>
    if c == '"' then some ([], cs)
    else if c == '\\' then
      match cs with
      | [] => none
      | e :: cs2 =>
        let dec : Option Char :=
          if e == '"' then some '"'
          else if e == '\\' then some '\\'
          else if e == '/' then some '/'
          else if e == 'n' then some '\n'
          else if e == 't' then some '\t'
          else if e == 'r' then some '\r'
          else if e == 'b' then some (Char.ofNat 8)
          else if e == 'f' then some (Char.ofNat 12)
          else none
        match dec with
        | none => none
        | some d =>
          match jStrBody cs2 with
          | some (out, rest) => some (d :: out, rest)
          | none => none
    else
      match jStrBody cs with
      | some (out, rest) => some (c :: out, rest)
      | none => none

/-- Longest digit run at the front of the input. -/
def takeDigits : List Char → List Char × List Char
  | [] => ([], [])
  | c :: cs =>
    if c.isDigit then
      let p := takeDigits cs
      (c :: p.1, p.2)
    else ([], c :: cs)

/-- Value of a digit run. -/
def digitsToNat (ds : List Char) : Nat :=
  ds.foldl (fun n c => n * 10 + (c.toNat - 48)) 0

/-- An integral JSON number. -/
def mkIntVal (neg : Bool) (ds : List Char) : JVal :=
  let n : Int := Int.ofNat (digitsToNat ds)
  .num (if neg then -n else n)

/-- Exponent part of a number, after the `e`: optional sign and digits. -/
def expPart (cs : List Char) : Option (List Char × List Char) :=
  let p : List Char × List Char :=
    match cs with
    | c :: rest => if c == '+' || c == '-' then ([c], rest) else ([], cs)
    | [] => ([], cs)
  let q := takeDigits p.2
  if q.1.isEmpty then none else some (p.1 ++ q.1, q.2)

/-- A JSON number: integers become `num`, fraction or exponent forms
keep their lexeme as `numRaw`; leading zeros are rejected as in JSON. -/
def jNumber (cs : List Char) : Option (JVal × List Char) :=
  let sp : List Char × List Char :=
    match cs with
    | c :: rest => if c == '-' then (['-'], rest) else ([], cs)
    | [] => ([], cs)
  let sgn := sp.1
  let dp := takeDigits sp.2
  let ds := dp.1
  let r1 := dp.2
  if ds.isEmpty then none
  else if decide (ds.length > 1) && (ds.headD '0' == '0') then none
  else
    match r1 with
    | c :: r2 =>
      if c == '.' then
        let fp := takeDigits r2
        let fs := fp.1
        let r3 := fp.2
        if fs.isEmpty then none
        else
          match r3 with
          | e :: r4 =>
            if e == 'e' || e == 'E' then
              match expPart r4 with
              | some (es, r5) => some (.numRaw (sgn ++ ds ++ c :: fs ++ e :: es).asString, r5)
              | none => none
            else some (.numRaw (sgn ++ ds ++ c :: fs).asString, r3)
          | [] => some (.numRaw (sgn ++ ds ++ c :: fs).asString, [])
      else if c == 'e' || c == 'E' then
        match expPart r2 with
        | some (es, r5) => some (.numRaw (sgn ++ ds ++ c :: es).asString, r5)
        | none => none
      else some (mkIntVal (!sgn.isEmpty) ds, r1)
    | [] => some (mkIntVal (!sgn.isEmpty) ds, [])

/-- Fixed literal (`true`, `false`, `null`) after its first character. -/
def expectLit (cs : List Char) (lit : String) (v : JVal) : Option (JVal × List Char) :=
  if leadsWith lit.toList cs then some (v, cs.drop lit.length) else none

mutual

/-- A JSON value at the front of the input. -/
def jParse : Nat → List Char → Option (JVal × List Char)
  | 0, _ => none
  | fuel + 1, cs =>
    match skipWs cs with
    | [] => none
    | c :: rest =>
      if c == '"' then
        match jStrBody rest with
        | some (out, r) => some (.str out.asString, r)
        | none => none
      else if c == lbrace then
        match skipWs rest with
        | c2 :: r2 =>
          if c2 == rbrace then some (.obj [], r2)
          else
            match jMembers fuel (c2 :: r2) with
            | some (fields, r3) => some (.obj (dictOfPairs fields), r3)
            | none => none
        | [] => none
      else if c == '[' then
        match skipWs rest with
        | c2 :: r2 =>
          if c2 == ']' then some (.arr [], r2)
          else
            match jElems fuel (c2 :: r2) with
            | some (xs, r3) => some (.arr xs, r3)
            | none => none
        | [] => none
      else if c == 't' then expectLit rest "rue" (.bool true)
      else if c == 'f' then expectLit rest "alse" (.bool false)
      else if c == 'n' then expectLit rest "ull" .null
      else if c == '-' || c.isDigit then jNumber (c :: rest)
      else none

/-- The members of a JSON object, starting at a key, through the
closing brace. -/
def jMembers : Nat → List Char → Option (List (String × JVal) × List Char)
  | 0, _ => none
  | fuel + 1, cs =>
    match cs with
    | [] => none
    | c :: rest =>
      if c == '"' then
        match jStrBody rest with
        | some (key, r1) =>
          match skipWs r1 with
          | c2 :: r2 =>
            if c2 == ':' then
              match jParse fuel r2 with
              | some (v, r3) =>
                match skipWs r3 with
                | c3 :: r4 =>
                  if c3 == ',' then
                    match jMembers fuel (skipWs r4) with
                    | some (fields, r5) => some ((key.asString, v) :: fields, r5)
                    | none => none
                  else if c3 == rbrace then some ([(key.asString, v)], r4)
                  else none
                | [] => none
              | none => none
            else none
          | [] => none
        | none => none
      else none

/-- The elements of a JSON array, through the closing bracket. -/
def jElems : Nat → List Char → Option (List JVal × List Char)
  | 0, _ => none
  | fuel + 1, cs =>
    match jParse fuel cs with
    | some (v, r1) =>
      match skipWs r1 with
      | c :: r2 =>
        if c == ',' then
          match jElems fuel r2 with
          | some (xs, r3) => some (v :: xs, r3)
          | none => none
        else if c == ']' then some ([v], r2)
        else none
      | [] => none
    | none => none

end

/-- `json.loads` on a character list: a single JSON value followed by
nothing but whitespace, else failure (`JSONDecodeError`). -/
def jsonLoads (cs : List Char) : Option JVal :=
  match jParse (cs.length + 2) cs with
  | some (v, rest) => if (skipWs rest).isEmpty then some v else none
  | none => none

/-!  ## GeminiAgent (the intent oracle)

The completion service is part of the environment: `oracleResp i` is
its response to the `i`-th completion request of the current
`process_query` run (`Except.error` being an exception the client
library raises).  Indexing responses by call order rather than by
prompt loses nothing: within one run the calls happen in a fixed
sequence, so every prompt-dependent oracle behaviour is realised by
some environment. -/

/-- The environment of one `process_query` invocation: the backend's
response to the `i`-th events-list call, the completion service's
response to the `i`-th prompt, the backend's response to an insert of
a given body, and the invocation's UTC clock. -/
structure Env where
  listResp : Nat → Except String (List Obj)
  oracleResp : Nat → Except String String
  insertResp : Obj → Except String Obj
  now : Instant

/-- The text `GeminiAgent.generate_response` produces for the `i`-th
completion call: the oracle's text, or, when the call raises, the
error folded into the returned string. -/
def oracleReply (env : Env) (i : Nat) : String :=
  match env.oracleResp i with
  | .ok t => t
  | .error e => "Error generating response: " ++ e

/-- `GeminiAgent.generate_response`: builds the full prompt (context
and prompt joined by a blank line when a context is given) and returns
the completion text for call `i`. -/
def generate_response (env : Env) (i : Nat) (prompt : String) (context : String) : String :=
  let _full_prompt := if context.isEmpty then prompt else context ++ "\n\n" ++ prompt
  oracleReply env i

/-- The fixed instruction template of `parse_calendar_command`
(braces written as their character codes). -/
def systemContextTemplate : String :=
  "You are a helpful calendar assistant. Analyze the user\x27s request and determine:\n" ++
  "1. The action they want to perform (list, create, delete, update)\n" ++
  "2. Extract relevant details (date, time, event name, duration, etc.)\n" ++
  "3. Return a JSON response with this structure:\n" ++
  "\x7b\n" ++
  "    \"action\": \"list|create|delete|update\",\n" ++
  "    \"summary\": \"event title\",\n" ++
  "    \"start_time\": \"ISO datetime string\",\n" ++
  "    \"end_time\": \"ISO datetime string\",\n" ++
  "    \"description\": \"event description\",\n" ++
  "    \"confidence\": \"high|medium|low\",\n" ++
  "    \"clarification_needed\": \"question if details are unclear\"\n" ++
  "\x7d\n" ++
  "\nCurrent calendar context:\n"

/-- The full intent-parsing prompt of `parse_calendar_command`. -/
def calendarPrompt (user_input calendar_context : String) : String :=
  systemContextTemplate ++ calendar_context ++
  "\n\nUser request: " ++ user_input ++
  "\n\nProvide your analysis as JSON only, no additional text."

/-- The fallback intent when no brace-delimited candidate is found. -/
def couldNotUnderstandDict : Obj :=
  [ ("action", .str "unknown"), ("confidence", .str "low"),
    ("clarification_needed", .str "Could not understand the request") ]

/-- The fallback intent when the extracted candidate is not valid JSON. -/
def couldNotParseDict : Obj :=
  [ ("action", .str "unknown"), ("confidence", .str "low"),
    ("clarification_needed", .str "Could not parse the request") ]

/-- The brace-delimited JSON candidate of a raw oracle response: from
the first `{` through the last `}`, when that span is non-empty
(`find` / `rfind` / slice of the source). -/
def extractJson (response : String) : Option (List Char) :=
  let cs := response.toList
  match charFind cs lbrace with
  | none => none
  | some st =>
    match charRfind cs rbrace with
    | none => none
    | some e =>
      let en := e + 1
      if st < en then some ((cs.drop st).take (en - st)) else none

/-- The JSON-extraction half of `parse_calendar_command`: slice out the
brace-delimited candidate and `json.loads` it, downgrading a missing
candidate or a parse failure to the unknown/low fallback intents.  (A
successful parse of the candidate is necessarily an object, since the
slice starts at `{`; a non-object result falls to the parse-failure
branch, which is unreachable there.) -/
def parseCalendarFromText (response : String) : Obj :=
  match extractJson response with
  | none => couldNotUnderstandDict
  | some js =>
    match jsonLoads js with
    | some (.obj d) => d
    | _ => couldNotParseDict

/-- `GeminiAgent.parse_calendar_command` for the `i`-th completion
call: prompt, completion, extraction. -/
def parse_calendar_command (env : Env) (i : Nat)
    (user_input calendar_context : String) : Obj :=
  parseCalendarFromText (generate_response env i (calendarPrompt user_input calendar_context) "")

/-!  ## CalendarChatAgent.process_query (the dispatcher) -/

/-- The arguments of a `create_event` call made by the dispatcher. -/
structure InsertCall where
  summary : JVal
  start_time : Instant
  end_time : Instant
  description : JVal

/-- The observable remote activity of one `process_query` run: how many
events-list, completion, and insert calls were made, the arguments of
the insert calls, and the error lines the gateway logged. -/
structure Trace where
  listCalls : Nat
  oracleCalls : Nat
  insertCalls : Nat
  inserts : List InsertCall
  logs : List String

/-- Total number of blocking remote calls a run performed. -/
def totalRemoteCalls (t : Trace) : Nat :=
  t.listCalls + t.oracleCalls + t.insertCalls

/-- The fast-path keyword set of `process_query`. -/
def fastKeywords : List String := ["list", "show", "what", "upcoming", "events"]

/-- The fast-path test: some keyword occurs in the lower-cased input. -/
def fastKeyword (low : String) : Bool :=
  fastKeywords.any (fun k => strContains low k)

/-- The reply of the fast-path List branch on the freshly fetched
events: the no-events sentence, or the header plus `format_events`
(whose exception propagates). -/
def listReply (events : List Obj) : Except PyErr String :=
  if events.isEmpty then .ok "You have no upcoming events."
  else
    match format_events events with
    | .ok s => .ok ("Here are your upcoming events:\n\n" ++ s)
    | .error e => .error e

/-- `CalendarChatAgent.get_calendar_context`, given the events already
fetched: header plus `format_events` (whose exception propagates). -/
def calendarContext (events : List Obj) : Except PyErr String :=
  match format_events events with
  | .ok s => .ok ("Upcoming events:\n" ++ s)
  | .error e => .error e

/-- `parsed.get('action') == 'create'`. -/
def actionIsCreate (parsed : Obj) : Bool :=
  match dGet parsed "action" with
  | some (.str s) => s == "create"
  | _ => false

/-- `CalendarChatAgent.process_query`: fetch and render the grounding
context, take the keyword fast path for list requests, otherwise
consult the oracle and dispatch on the parsed intent (create /
clarification / conversational fallback).  The result is the returned
reply or the escaping exception, paired with the run's remote-call
trace.  Only the create branch is wrapped in a `try`; nothing inside
that branch raises in this embedding, so its `except` arm is dead. -/
def process_query (env : Env) (user_input : String) : Except PyErr String × Trace :=
  let events0 := (list_events (env.listResp 0)).1
  let logs0 := (list_events (env.listResp 0)).2
  match calendarContext events0 with
  | .error e => (.error e, ⟨1, 0, 0, [], logs0⟩)
  | .ok context =>
    let user_input_lower := lowerStr user_input
    if fastKeyword user_input_lower then
      let events1 := (list_events (env.listResp 1)).1
      let logs1 := (list_events (env.listResp 1)).2
      (listReply events1, ⟨2, 0, 0, [], logs0 ++ logs1⟩)
    else
      let parsed := parse_calendar_command env 0 user_input context
      if actionIsCreate parsed then
        let summary := match dGet parsed "summary" with
          | some v => v
          | none => JVal.str "New Event"
        let description := match dGet parsed "description" with
          | some v => v
          | none => JVal.str ""
        let start_time := env.now + oneHour
        let end_time := start_time + oneHour
        let created := create_event env.insertResp summary start_time end_time description
        let reply :=
          if created.1.isEmpty then "❌ Failed to create event"
          else "✅ Created event: " ++ pyStr summary ++
               "\nStart: " ++ dtStr start_time ++ "\nEnd: " ++ dtStr end_time
        (.ok reply, ⟨1, 1, 1, [⟨summary, start_time, end_time, description⟩], logs0 ++ created.2⟩)
      else
        let clar := dGet parsed "clarification_needed"
        match clar with
        | some v =>
          if truthy v then (.ok ("🤔 " ++ pyStr v), ⟨1, 1, 0, [], logs0⟩)
          else
            (.ok (generate_response env 1 user_input
                   ("You are a calendar assistant. Here\x27s the current calendar:\n" ++ context)),
             ⟨1, 2, 0, [], logs0⟩)
        | none =>
          (.ok (generate_response env 1 user_input
                 ("You are a calendar assistant. Here\x27s the current calendar:\n" ++ context)),
           ⟨1, 2, 0, [], logs0⟩)

/-!  ## Helper lemmas: substring containment -/

theorem leadsWith_append (n suf : List Char) : leadsWith n (n ++ suf) = true := by
  induction n with
  | nil => rfl
  | cons a as ih => simp [leadsWith, ih]

theorem containsSeq_skip (n h2 : List Char) (c : Char)
    (h : containsSeq n h2 = true) : containsSeq n (c :: h2) = true := by
  simp [containsSeq, h]

theorem containsSeq_prepend (a n h2 : List Char)
    (h : containsSeq n h2 = true) : containsSeq n (a ++ h2) = true := by
  induction a with
  | nil => simpa using h
  | cons c cs ih => exact containsSeq_skip _ _ _ ih

theorem containsSeq_here (n suf : List Char) : containsSeq n (n ++ suf) = true := by
  cases n with
  | nil =>
    cases suf with
    | nil => rfl
    | cons c cs => simp [containsSeq, leadsWith]
  | cons a as => simp [containsSeq, leadsWith, leadsWith_append]

theorem strContains_head (x suf : String) : strContains (x ++ suf) x = true := by
  have h : (x ++ suf).toList = x.toList ++ suf.toList := String.data_append x suf
  simp only [strContains, h]
  exact containsSeq_here _ _

theorem strContains_prepend (a b x : String)
    (h : strContains b x = true) : strContains (a ++ b) x = true := by
  have h2 : (a ++ b).toList = a.toList ++ b.toList := String.data_append a b
  simp only [strContains, h2]
  exact containsSeq_prepend _ _ _ h

theorem strContains_self (x : String) : strContains x x = true := by
  have h := strContains_head x ""
  simpa using h

theorem leadsWith_mono (n h1 h2 : List Char)
    (h : leadsWith n h1 = true) : leadsWith n (h1 ++ h2) = true := by
  induction n generalizing h1 with
  | nil => rfl
  | cons a as ih =>
    cases h1 with
    | nil => simp [leadsWith] at h
    | cons b bs =>
      simp only [leadsWith, Bool.and_eq_true] at h
      simp only [List.cons_append, leadsWith, Bool.and_eq_true]
      exact ⟨h.1, ih bs h.2⟩

theorem containsSeq_extend (n h1 h2 : List Char)
    (h : containsSeq n h1 = true) : containsSeq n (h1 ++ h2) = true := by
  induction h1 with
  | nil =>
    have hn : n = [] := by simpa [containsSeq] using h
    subst hn
    cases h2 with
    | nil => rfl
    | cons c cs => simp [containsSeq, leadsWith]
  | cons c cs ih =>
    simp only [containsSeq, Bool.or_eq_true] at h
    rcases h with h | h
    · simp only [List.cons_append, containsSeq, Bool.or_eq_true]
      exact Or.inl (leadsWith_mono _ _ _ h)
    · simp only [List.cons_append, containsSeq, Bool.or_eq_true]
      exact Or.inr (ih h)

theorem strContains_extend (a b x : String)
    (h : strContains a x = true) : strContains (a ++ b) x = true := by
  have h2 : (a ++ b).toList = a.toList ++ b.toList := String.data_append a b
  simp only [strContains, h2]
  exact containsSeq_extend _ _ _ h

theorem strContains_tail (a x : String) : strContains (a ++ x) x = true :=
  strContains_prepend a x x (strContains_self x)

/-!  ## Helper lemmas: dictionary update -/

theorem setKey_keys (d : Obj) (k : String) (v : JVal) :
    (setKey d k v).map Prod.fst = d.map Prod.fst := by
  induction d with
  | nil => rfl
  | cons p rest ih =>
    obtain ⟨a, b⟩ := p
    by_cases h : a = k <;> simp [setKey, h] <;> simpa [setKey] using ih

theorem dGet_setKey (d : Obj) (j : String) (v : JVal) (k : String) :
    dGet (setKey d j v) k =
      if k = j then (if hasKey d j then some v else none) else dGet d k := by
  induction d with
  | nil => by_cases h : k = j <;> simp [setKey, dGet, hasKey, h]
  | cons p rest ih =>
    obtain ⟨a, b⟩ := p
    simp only [setKey, List.map_cons]
    have hsk : List.map (fun p => if p.1 = j then (j, v) else p) rest = setKey rest j v := rfl
    by_cases haj : a = j
    · subst haj
      rw [if_pos rfl]
      by_cases hka : k = a
      · subst hka
        simp [dGet, hasKey]
      · have hak : ¬ a = k := fun h => hka h.symm
        simp only [dGet, if_neg hak, hsk, ih]
        simp [hka]
    · rw [if_neg haj]
      by_cases hak : a = k
      · subst hak
        have hkj : ¬ a = j := haj
        simp [dGet, hkj]
      · simp only [dGet, if_neg hak, hsk, ih]
        by_cases hkj : k = j
        · subst hkj
          simp [hasKey, dGet, if_neg haj]
        · simp [hkj]

theorem dGet_stepUpd (ev : Obj) (c : String × JVal) (k : String) :
    dGet (stepUpd ev c) k =
      if k = c.1 ∧ hasKey ev k = true then some c.2 else dGet ev k := by
  unfold stepUpd
  by_cases h : hasKey ev c.1 = true
  · rw [if_pos h, dGet_setKey]
    by_cases hk : k = c.1
    · subst hk
      simp [h]
    · simp [hk]
  · rw [if_neg h]
    by_cases hk : k = c.1
    · subst hk
      simp [h]
    · simp [hk]

theorem stepUpd_keys (ev : Obj) (c : String × JVal) :
    (stepUpd ev c).map Prod.fst = ev.map Prod.fst := by
  unfold stepUpd
  by_cases h : hasKey ev c.1 <;> simp [h, setKey_keys]

theorem hasKey_stepUpd (ev : Obj) (c : String × JVal) (k : String) :
    hasKey (stepUpd ev c) k = hasKey ev k := by
  simp only [hasKey, dGet_stepUpd]
  by_cases h : k = c.1 ∧ (dGet ev k).isSome = true
  · obtain ⟨h1, h2⟩ := h
    subst h1
    simp [h2]
  · simp [h]

theorem dGet_append (l1 l2 : Obj) (k : String) :
    dGet (l1 ++ l2) k = if (dGet l1 k).isSome then dGet l1 k else dGet l2 k := by
  induction l1 with
  | nil => simp [dGet]
  | cons p rest ih =>
    obtain ⟨a, b⟩ := p
    by_cases h : a = k <;> simp [dGet, h, ih]

theorem applyChanges_keys (changes : List (String × JVal)) (event : Obj) :
    (applyChanges event changes).map Prod.fst = event.map Prod.fst := by
  induction changes generalizing event with
  | nil => rfl
  | cons c ch ih =>
    have h : applyChanges event (c :: ch) = applyChanges (stepUpd event c) ch := rfl
    rw [h, ih, stepUpd_keys]

theorem dGet_applyChanges (changes : List (String × JVal)) (event : Obj) (k : String) :
    dGet (applyChanges event changes) k =
      if hasKey event k && (dGet changes.reverse k).isSome
      then dGet changes.reverse k else dGet event k := by
  induction changes generalizing event with
  | nil => simp [applyChanges, dGet]
  | cons c ch ih =>
    have hfold : applyChanges event (c :: ch) = applyChanges (stepUpd event c) ch := rfl
    rw [hfold, ih, hasKey_stepUpd]
    obtain ⟨kc, vc⟩ := c
    have hrev : (⟨kc, vc⟩ :: ch : List (String × JVal)).reverse = ch.reverse ++ [(kc, vc)] := by
      simp
    rw [hrev, dGet_append]
    cases hlast : dGet ch.reverse k with
    | some v =>
      simp only [hlast, Option.isSome_some, if_pos rfl, Bool.and_true]
      cases hev : hasKey event k with
      | true => simp
      | false =>
        simp only [Bool.false_and, if_neg Bool.false_ne_true, dGet_stepUpd]
        simp [hev]
    | none =>
      simp only [hlast, Option.isSome_none, Bool.false_eq_true, if_neg, ite_false, dGet_stepUpd]
      by_cases hkc : k = kc
      · subst hkc
        simp only [dGet, if_pos rfl]
        cases hev : hasKey event k with
        | true => simp [hev]
        | false => simp [hev]
      · have : ¬ (kc = k) := fun h => hkc h.symm
        simp [dGet, this, hkc]

/-- C8.  For every update call with a field-change mapping, the body
`update_event` sends back overwrites only keys already present on the
fetched event: the key set of the body equals that of the fetched
event, and the value at any key `k` is the (last) value the mapping
assigns to `k` when the fetched event has `k` and the mapping names it,
and the fetched value otherwise — so unknown keys of the mapping are
silently ignored and unnamed fields keep their fetched values. -/
theorem spec_c8_update_overwrites_only_known_fields
    (event : Obj) (changes : List (String × JVal)) (k : String) :
    (applyChanges event changes).map Prod.fst = event.map Prod.fst ∧
    dGet (applyChanges event changes) k =
      (if hasKey event k && (dGet changes.reverse k).isSome
       then dGet changes.reverse k else dGet event k) :=
  ⟨applyChanges_keys changes event, dGet_applyChanges changes event k⟩

/-- C9.  A list call whose backend operation fails returns the empty
sequence and reports the error locally in its log (never raising), so
a failed fetch is indistinguishable from a truly empty calendar in the
returned sequence. -/
theorem spec_c9_list_failure_empty_and_logged (e : String) :
    list_events (.error e) = ([], ["An error occurred: " ++ e]) ∧
    list_events (.ok ([] : List Obj)) = ([], []) ∧
    (list_events (.error e)).1 = (list_events (.ok ([] : List Obj))).1 := by
  simp [list_events]

/-!  ## Helper lemmas: the event formatter -/

/-- The start value a line renders: `dateTime`, else `date`, else
`None` (junk on events whose rendering raises). -/
def startPiece (event : Obj) : String :=
  match dGet event "start" with
  | some (.obj st) =>
    pyStr (match dGet st "dateTime" with
      | some v => v
      | none =>
        match dGet st "date" with
        | some v => v
        | none => JVal.null)
  | _ => ""

/-- The title a line renders: the summary, defaulting to `No title`. -/
def titlePiece (event : Obj) : String :=
  pyStr (match dGet event "summary" with
    | some v => v
    | none => JVal.str "No title")

/-- The identifier piece a line renders: the first eight characters of
the identifier, defaulting to the empty identifier (junk on events
whose rendering raises). -/
def idPiece8 (event : Obj) : String :=
  match dGet event "id" with
  | none => ""
  | some (.str s) => (s.toList.take 8).asString
  | some (.arr xs) => pyStr (.arr (xs.take 8))
  | some _ => ""

theorem eventLine_ok_of_lineOk (e : Obj) (h : lineOk e = true) :
    eventLine e = .ok (eventLineStr e) := by
  unfold lineOk at h
  unfold eventLineStr
  cases hl : eventLine e with
  | ok s => rfl
  | error err => rw [hl] at h; exact absurd h (by simp)

theorem eventLineStr_shape (e : Obj) (h : lineOk e = true) :
    eventLineStr e =
      "- " ++ startPiece e ++ ": " ++ titlePiece e ++ " (ID: " ++ idPiece8 e ++ "...)" := by
  unfold lineOk eventLine at h
  unfold eventLineStr eventLine startPiece titlePiece idPiece8
  cases hst : dGet e "start" with
  | none => rw [hst] at h; simp at h
  | some sv =>
    rw [hst] at h
    cases sv with
    | obj st =>
      cases hid : dGet e "id" with
      | none => rw [hid] at h; try simp
      | some idv =>
        rw [hid] at h
        cases idv with
        | str s => simp
        | arr xs => simp
        | num n => simp at h
        | numRaw lex => simp at h
        | bool b => simp at h
        | null => simp at h
        | obj fs => simp at h
    | str s => simp at h
    | num n => simp at h
    | numRaw lex => simp at h
    | bool b => simp at h
    | null => simp at h
    | arr xs => simp at h

/-- All events of a fetched list render without raising. -/
def allLinesOk (events : List Obj) : Bool :=
  events.all lineOk

theorem formatLines_ok (events : List Obj) (h : allLinesOk events = true) :
    formatLines events = .ok (events.map eventLineStr) := by
  induction events with
  | nil => rfl
  | cons e rest ih =>
    simp only [allLinesOk, List.all_cons, Bool.and_eq_true] at h
    have h1 := eventLine_ok_of_lineOk e h.1
    have h2 := ih (by simpa [allLinesOk] using h.2)
    simp [formatLines, h1, h2]

theorem format_events_ok (events : List Obj) (hne : events ≠ [])
    (h : allLinesOk events = true) :
    format_events events = .ok (String.intercalate "\n" (events.map eventLineStr)) := by
  unfold format_events
  rw [if_neg (by simpa using hne), formatLines_ok events h]

theorem format_events_ok_exists (events : List Obj) (h : allLinesOk events = true) :
    ∃ s, format_events events = .ok s := by
  cases hne : events with
  | nil => exact ⟨"No upcoming events found.", rfl⟩
  | cons e rest =>
    subst hne
    exact ⟨_, format_events_ok _ (by simp) h⟩

/-- C7 counterexample.  The formatter is not total on non-empty
sequences: on the one-event sequence whose event lacks a `start` field
it raises `KeyError` instead of producing a line, so the claim's
universal statement over all non-empty sequences fails. -/
theorem spec_c7_counterexample :
    format_events [([] : Obj)] = .error (.keyError "start") ∧
    ([([] : Obj)] ≠ ([] : List Obj)) ∧
    ∀ s : String, format_events [([] : Obj)] ≠ .ok s := by
  refine ⟨rfl, by simp, ?_⟩
  intro s
  simp [format_events, formatLines, eventLine, dGet]

/-- C7 as amended.  The formatter is a pure function of its input
(definitionally: it is a Lean function); on the empty sequence it
returns exactly the fixed sentence, and on every non-empty sequence
each of whose events renders without raising (in particular, each event
has a `start` field) it returns exactly one line per event, joined by
newlines, each line containing that event's start, its title, and the
first eight characters of its identifier. -/
theorem spec_c7_formatter_amended :
    format_events ([] : List Obj) = .ok "No upcoming events found." ∧
    ∀ events : List Obj, events ≠ [] → allLinesOk events = true →
      format_events events = .ok (String.intercalate "\n" (events.map eventLineStr)) ∧
      (events.map eventLineStr).length = events.length ∧
      ∀ e ∈ events,
        strContains (eventLineStr e) (startPiece e) = true ∧
        strContains (eventLineStr e) (titlePiece e) = true ∧
        strContains (eventLineStr e) (idPiece8 e) = true := by
  refine ⟨rfl, ?_⟩
  intro events hne h
  refine ⟨format_events_ok events hne h, by simp, ?_⟩
  intro e he
  have hok : lineOk e = true := by
    have := List.all_eq_true.mp h e he
    simpa using this
  rw [eventLineStr_shape e hok]
  refine ⟨?_, ?_, ?_⟩
  · exact strContains_extend _ _ _ (strContains_extend _ _ _ (strContains_extend _ _ _
      (strContains_extend _ _ _ (strContains_extend _ _ _ (strContains_tail _ _)))))
  · exact strContains_extend _ _ _ (strContains_extend _ _ _ (strContains_extend _ _ _
      (strContains_tail _ _)))
  · exact strContains_extend _ _ _ (strContains_tail _ _)

/-- C7 witness event: a well-formed fetched event. -/
def sampleEvent : Obj :=
  [ ("start", .obj [("dateTime", .str "2025-01-01T10:00:00Z")]),
    ("summary", .str "Standup"),
    ("id", .str "abcdefgh1234") ]

/-- C7 witness: the amended formatter theorem applied to a concrete
one-event sequence. -/
theorem spec_c7_formatter_amended_witness :
    ([sampleEvent] ≠ ([] : List Obj)) ∧ allLinesOk [sampleEvent] = true ∧
    format_events [sampleEvent] =
      .ok (String.intercalate "\n" ([sampleEvent].map eventLineStr)) ∧
    eventLineStr sampleEvent = "- 2025-01-01T10:00:00Z: Standup (ID: abcdefgh...)" :=
  ⟨by simp, rfl,
   (spec_c7_formatter_amended.2 [sampleEvent] (by simp) rfl).1, rfl⟩

/-!  ## The intent-extraction claims -/

/-- C5 counterexample.  On a response whose brace-delimited candidate
fails to parse as JSON, the clarification text is the distinct "Could
not parse the request", not the "could not understand" text the claim
names (shown case-insensitively: the parse-failure text does not
contain "could not understand" even lower-cased). -/
theorem spec_c5_counterexample :
    parseCalendarFromText "\x7bx\x7d" = couldNotParseDict ∧
    dGet (parseCalendarFromText "\x7bx\x7d") "clarification_needed" =
      some (.str "Could not parse the request") ∧
    strContains "could not parse the request" "could not understand" = false ∧
    ("Could not parse the request" ≠ "Could not understand the request") := by
  refine ⟨rfl, rfl, rfl, ?_⟩
  decide

/-- C5 as amended.  The intent-parsing routine is total (it never
raises: it is a Lean function into `Obj`); when the response has no
brace-delimited candidate it returns the Unknown/Low intent with
clarification "Could not understand the request", and when the
candidate fails to parse as JSON it returns the Unknown/Low intent
with clarification "Could not parse the request". -/
theorem spec_c5_intent_extraction_amended (response : String) :
    (extractJson response = none →
      parseCalendarFromText response = couldNotUnderstandDict) ∧
    (∀ js, extractJson response = some js → jsonLoads js = none →
      parseCalendarFromText response = couldNotParseDict) := by
  constructor
  · intro h
    simp [parseCalendarFromText, h]
  · intro js h hj
    simp [parseCalendarFromText, h, hj]

/-- C5 witness: the amended theorem applied to a braceless response and
to a response with an unparsable brace-delimited candidate. -/
theorem spec_c5_intent_extraction_amended_witness :
    parseCalendarFromText "hello" = couldNotUnderstandDict ∧
    parseCalendarFromText "\x7bx\x7d" = couldNotParseDict :=
  ⟨(spec_c5_intent_extraction_amended "hello").1 rfl,
   (spec_c5_intent_extraction_amended "\x7bx\x7d").2 ("\x7bx\x7d".toList) rfl rfl⟩

/-!  ## Helper lemmas: the dispatcher branches -/

/-- Shape of a fast-path reply. -/
def isListReply (r : String) : Prop :=
  r = "You have no upcoming events." ∨
  ∃ s, r = "Here are your upcoming events:\n\n" ++ s

theorem listReply_shape (evs : List Obj) (r : String)
    (h : listReply evs = .ok r) : isListReply r := by
  unfold listReply at h
  by_cases he : evs.isEmpty = true
  · rw [if_pos he] at h
    simp only [Except.ok.injEq] at h
    exact Or.inl h.symm
  · rw [if_neg he] at h
    cases hf : format_events evs with
    | error e => rw [hf] at h; simp at h
    | ok s =>
      rw [hf] at h
      simp only [Except.ok.injEq] at h
      exact Or.inr ⟨s, h.symm⟩

theorem listReply_ok_exists (evs : List Obj) (h : allLinesOk evs = true) :
    ∃ r, listReply evs = .ok r := by
  unfold listReply
  cases hevs : evs with
  | nil => exact ⟨"You have no upcoming events.", rfl⟩
  | cons e rest =>
    subst hevs
    rw [if_neg (by simp)]
    rw [format_events_ok _ (by simp) h]
    exact ⟨_, rfl⟩

theorem calendarContext_ok_exists (evs : List Obj) (h : allLinesOk evs = true) :
    ∃ s, calendarContext evs = .ok s := by
  unfold calendarContext
  obtain ⟨s, hs⟩ := format_events_ok_exists evs h
  rw [hs]
  exact ⟨_, rfl⟩

theorem process_query_error (env : Env) (q : String) (e : PyErr)
    (hctx : calendarContext (list_events (env.listResp 0)).1 = .error e) :
    process_query env q = (.error e, ⟨1, 0, 0, [], (list_events (env.listResp 0)).2⟩) := by
  simp only [process_query, hctx]

theorem process_query_fast (env : Env) (q : String) (ctx : String)
    (hctx : calendarContext (list_events (env.listResp 0)).1 = .ok ctx)
    (hk : fastKeyword (lowerStr q) = true) :
    process_query env q =
      (listReply (list_events (env.listResp 1)).1,
       ⟨2, 0, 0, [], (list_events (env.listResp 0)).2 ++ (list_events (env.listResp 1)).2⟩) := by
  simp only [process_query, hctx]
  simp [hk]

/-- C1.  On every utterance whose lower-cased text contains a fast-path
keyword, `process_query` makes no completion call at all (neither the
intent-parsing call nor the general one), and whenever it returns a
reply it is a List-branch reply. -/
theorem spec_c1_fast_path_bypasses_oracle (env : Env) (q : String)
    (h : fastKeyword (lowerStr q) = true) :
    (process_query env q).2.oracleCalls = 0 ∧
    ∀ r, (process_query env q).1 = .ok r → isListReply r := by
  cases hc : calendarContext (list_events (env.listResp 0)).1 with
  | error e =>
    rw [process_query_error env q e hc]
    exact ⟨rfl, fun r hr => by simp at hr⟩
  | ok ctx =>
    rw [process_query_fast env q ctx hc h]
    exact ⟨rfl, fun r hr => listReply_shape _ _ hr⟩

/-- C1 witness: a concrete keyword utterance against a concrete
environment makes zero oracle calls. -/
theorem spec_c1_fast_path_bypasses_oracle_witness :
    fastKeyword (lowerStr "Show my events") = true ∧
    (process_query ⟨fun _ => .ok [], fun _ => .ok "", fun _ => .ok [], 0⟩
        "Show my events").2.oracleCalls = 0 :=
  ⟨by decide,
   (spec_c1_fast_path_bypasses_oracle
     ⟨fun _ => .ok [], fun _ => .ok "", fun _ => .ok [], 0⟩ "Show my events" (by decide)).1⟩

/-- C10.  On a fast-path utterance the dispatcher performs two list
calls — the grounding fetch and a second fetch for the reply — makes no
oracle call, and renders the reply from the second fetch, so the reply
tracks the backend state at the second call, not the grounding
context. -/
theorem spec_c10_fast_path_double_fetch (env : Env) (q ctx : String)
    (hk : fastKeyword (lowerStr q) = true)
    (hctx : calendarContext (list_events (env.listResp 0)).1 = .ok ctx) :
    (process_query env q).2.listCalls = 2 ∧
    (process_query env q).2.oracleCalls = 0 ∧
    (process_query env q).1 = listReply (list_events (env.listResp 1)).1 := by
  rw [process_query_fast env q ctx hctx hk]
  exact ⟨rfl, rfl, rfl⟩

/-- C10 witness environment: the backend is empty at the grounding
fetch and has one event at the second fetch. -/
def c10event : Obj :=
  [ ("start", .obj [("date", .str "2025-02-02")]),
    ("summary", .str "Planning"),
    ("id", .str "zzzz9999xxxx") ]

/-- C10 witness environment. -/
def c10env : Env :=
  ⟨fun i => if i = 0 then .ok [] else .ok [c10event],
   fun _ => .ok "", fun _ => .ok [], 0⟩

/-- C10 witness: with the backend changing between the two fetches, the
reply is rendered from the second fetch and differs from what the
grounding fetch would have produced. -/
theorem spec_c10_fast_path_double_fetch_witness :
    fastKeyword (lowerStr "list my events") = true ∧
    (process_query c10env "list my events").2.listCalls = 2 ∧
    (process_query c10env "list my events").2.oracleCalls = 0 ∧
    (process_query c10env "list my events").1 =
      listReply (list_events (c10env.listResp 1)).1 ∧
    listReply (list_events (c10env.listResp 0)).1 = .ok "You have no upcoming events." ∧
    (process_query c10env "list my events").1 =
      .ok ("Here are your upcoming events:\n\n- 2025-02-02: Planning (ID: zzzz9999...)") ∧
    ("You have no upcoming events." ≠
      "Here are your upcoming events:\n\n- 2025-02-02: Planning (ID: zzzz9999...)") := by
  have h := spec_c10_fast_path_double_fetch c10env "list my events"
    "Upcoming events:\nNo upcoming events found." (by decide) rfl
  exact ⟨by decide, h.1, h.2.1, h.2.2, rfl, rfl, by decide⟩

theorem process_query_create (env : Env) (q ctx : String) (d : Obj)
    (summary description : JVal)
    (hfast : fastKeyword (lowerStr q) = false)
    (hctx : calendarContext (list_events (env.listResp 0)).1 = .ok ctx)
    (hparse : parse_calendar_command env 0 q ctx = d)
    (hact : actionIsCreate d = true)
    (hsum : (match dGet d "summary" with | some v => v | none => JVal.str "New Event") = summary)
    (hdesc : (match dGet d "description" with | some v => v | none => JVal.str "") = description) :
    process_query env q =
      (.ok (if (create_event env.insertResp summary (env.now + oneHour)
                  (env.now + oneHour + oneHour) description).1.isEmpty
            then "❌ Failed to create event"
            else "✅ Created event: " ++ pyStr summary ++ "\nStart: " ++
                 dtStr (env.now + oneHour) ++ "\nEnd: " ++ dtStr (env.now + oneHour + oneHour)),
       ⟨1, 1, 1,
        [⟨summary, env.now + oneHour, env.now + oneHour + oneHour, description⟩],
        (list_events (env.listResp 0)).2 ++
          (create_event env.insertResp summary (env.now + oneHour)
            (env.now + oneHour + oneHour) description).2⟩) := by
  subst hsum
  subst hdesc
  simp only [process_query, hctx, hfast, hparse, hact]
  simp

/-- C2.  On an utterance missing the fast path whose parsed intent has
action `create`, the dispatcher creates exactly one event, titled with
the oracle's summary (or `New Event` when omitted), starting one hour
after the invocation's clock and ending two hours after it; on gateway
success the reply echoes the title and both instants (and contains each
of them), and on gateway failure the failure message is returned. -/
theorem spec_c2_create_defaults_and_replies (env : Env) (q ctx : String) (d : Obj)
    (summary description : JVal)
    (hfast : fastKeyword (lowerStr q) = false)
    (hctx : calendarContext (list_events (env.listResp 0)).1 = .ok ctx)
    (hparse : parse_calendar_command env 0 q ctx = d)
    (hact : actionIsCreate d = true)
    (hsum : (match dGet d "summary" with | some v => v | none => JVal.str "New Event") = summary)
    (hdesc : (match dGet d "description" with | some v => v | none => JVal.str "") = description) :
    (process_query env q).2.inserts =
      [⟨summary, env.now + oneHour, env.now + oneHour + oneHour, description⟩] ∧
    (∀ ev : Obj, env.insertResp (createBody summary (env.now + oneHour)
        (env.now + oneHour + oneHour) description (.str "")) = .ok ev → ev ≠ [] →
      (process_query env q).1 =
        .ok ("✅ Created event: " ++ pyStr summary ++ "\nStart: " ++
             dtStr (env.now + oneHour) ++ "\nEnd: " ++ dtStr (env.now + oneHour + oneHour)) ∧
      strContains ("✅ Created event: " ++ pyStr summary ++ "\nStart: " ++
          dtStr (env.now + oneHour) ++ "\nEnd: " ++ dtStr (env.now + oneHour + oneHour))
        (pyStr summary) = true ∧
      strContains ("✅ Created event: " ++ pyStr summary ++ "\nStart: " ++
          dtStr (env.now + oneHour) ++ "\nEnd: " ++ dtStr (env.now + oneHour + oneHour))
        (dtStr (env.now + oneHour)) = true ∧
      strContains ("✅ Created event: " ++ pyStr summary ++ "\nStart: " ++
          dtStr (env.now + oneHour) ++ "\nEnd: " ++ dtStr (env.now + oneHour + oneHour))
        (dtStr (env.now + oneHour + oneHour)) = true) ∧
    (∀ e : String, env.insertResp (createBody summary (env.now + oneHour)
        (env.now + oneHour + oneHour) description (.str "")) = .error e →
      (process_query env q).1 = .ok "❌ Failed to create event") := by
  rw [process_query_create env q ctx d summary description hfast hctx hparse hact hsum hdesc]
  refine ⟨rfl, ?_, ?_⟩
  · intro ev hins hne
    have hC : create_event env.insertResp summary (env.now + oneHour)
        (env.now + oneHour + oneHour) description = (ev, []) := by
      simp [create_event, hins]
    rw [hC]
    have hne2 : ev.isEmpty = false := by
      cases ev with
      | nil => exact absurd rfl hne
      | cons a l => rfl
    refine ⟨by simp [hne2], ?_, ?_, ?_⟩
    · exact strContains_extend _ _ _ (strContains_extend _ _ _ (strContains_extend _ _ _
        (strContains_extend _ _ _ (strContains_tail _ _))))
    · exact strContains_extend _ _ _ (strContains_extend _ _ _ (strContains_tail _ _))
    · exact strContains_tail _ _
  · intro e herr
    have hC : create_event env.insertResp summary (env.now + oneHour)
        (env.now + oneHour + oneHour) description =
        ([], ["An error occurred: " ++ e]) := by
      simp [create_event, herr]
    rw [hC]
    rfl

/-- C2 witness environment: empty calendar, an oracle returning a
create intent titled `Team Sync`, a succeeding insert, clock at 0. -/
def c2env : Env :=
  ⟨fun _ => .ok [],
   fun _ => .ok "\x7b\"action\": \"create\", \"summary\": \"Team Sync\", \"confidence\": \"high\"\x7d",
   fun _ => .ok [("id", .str "e1")], 0⟩

/-- The intent dictionary the C2 witness oracle response parses to. -/
def c2dict : Obj :=
  [("action", .str "create"), ("summary", .str "Team Sync"), ("confidence", .str "high")]

/-- C2 witness: the create-branch theorem applied to the concrete
scenario of the spec (input `create a meeting`, oracle titling the
event `Team Sync`). -/
theorem spec_c2_create_defaults_and_replies_witness :
    fastKeyword (lowerStr "create a meeting") = false ∧
    parse_calendar_command c2env 0 "create a meeting"
      "Upcoming events:\nNo upcoming events found." = c2dict ∧
    (process_query c2env "create a meeting").2.inserts =
      [⟨.str "Team Sync", 3600, 7200, .str ""⟩] ∧
    (process_query c2env "create a meeting").1 =
      .ok "✅ Created event: Team Sync\nStart: 3600\nEnd: 7200" := by
  have h := spec_c2_create_defaults_and_replies c2env "create a meeting"
    "Upcoming events:\nNo upcoming events found." c2dict (.str "Team Sync") (.str "")
    (by decide) rfl rfl rfl rfl rfl
  exact ⟨by decide, rfl, h.1, (h.2.1 [("id", .str "e1")] rfl (by simp)).1⟩

/-- C3 counterexample environment: the oracle supplies explicit
`start_time`/`end_time` values alongside the create intent. -/
def c3env : Env :=
  ⟨fun _ => .ok [],
   fun _ => .ok ("\x7b\"action\": \"create\", \"summary\": \"Team Sync\", " ++
                 "\"start_time\": 360000, \"end_time\": 363600, \"confidence\": \"high\"\x7d"),
   fun _ => .ok [("id", .str "e2")], 0⟩

/-- The intent dictionary the C3 oracle response parses to. -/
def c3dict : Obj :=
  [("action", .str "create"), ("summary", .str "Team Sync"),
   ("start_time", .num 360000), ("end_time", .num 363600), ("confidence", .str "high")]

/-- C3 counterexample.  Even though the oracle supplies explicit
`start_time`/`end_time` values (here the instants 360000 and 363600),
the created event uses the one-hour-from-now defaults 3600 and 7200:
the oracle-provided instants are not used. -/
theorem spec_c3_counterexample :
    parse_calendar_command c3env 0 "book a meeting"
      "Upcoming events:\nNo upcoming events found." = c3dict ∧
    dGet c3dict "start_time" = some (.num 360000) ∧
    dGet c3dict "end_time" = some (.num 363600) ∧
    (process_query c3env "book a meeting").2.inserts =
      [⟨.str "Team Sync", 3600, 7200, .str ""⟩] ∧
    ((3600 : Nat) ≠ 360000) ∧ ((7200 : Nat) ≠ 363600) := by
  refine ⟨rfl, rfl, rfl, rfl, by decide, by decide⟩

/-- C3 as amended.  For every create intent, including those in which
the oracle supplies explicit `start_time` and `end_time` values, the
created event uses the one-hour-from-now default instants; the
oracle-provided instants are ignored. -/
theorem spec_c3_oracle_times_ignored_amended (env : Env) (q ctx : String) (d : Obj)
    (summary description v w : JVal)
    (hfast : fastKeyword (lowerStr q) = false)
    (hctx : calendarContext (list_events (env.listResp 0)).1 = .ok ctx)
    (hparse : parse_calendar_command env 0 q ctx = d)
    (hact : actionIsCreate d = true)
    (hsum : (match dGet d "summary" with | some v2 => v2 | none => JVal.str "New Event") = summary)
    (hdesc : (match dGet d "description" with | some v2 => v2 | none => JVal.str "") = description)
    (hst : dGet d "start_time" = some v)
    (hen : dGet d "end_time" = some w) :
    (process_query env q).2.inserts =
      [⟨summary, env.now + oneHour, env.now + oneHour + oneHour, description⟩] := by
  rw [process_query_create env q ctx d summary description hfast hctx hparse hact hsum hdesc]

/-- C3 amended witness: applied to the C3 environment. -/
theorem spec_c3_oracle_times_ignored_amended_witness :
    dGet c3dict "start_time" = some (.num 360000) ∧
    dGet c3dict "end_time" = some (.num 363600) ∧
    (process_query c3env "book a meeting").2.inserts =
      [⟨.str "Team Sync", 3600, 7200, .str ""⟩] := by
  refine ⟨rfl, rfl, ?_⟩
  exact spec_c3_oracle_times_ignored_amended c3env "book a meeting"
    "Upcoming events:\nNo upcoming events found." c3dict (.str "Team Sync") (.str "")
    (.num 360000) (.num 363600) (by decide) rfl rfl rfl rfl rfl rfl rfl

/-- C4 counterexample environment: the backend returns one event that
lacks a `start` field. -/
def c4env : Env := ⟨fun _ => .ok [[]], fun _ => .ok "", fun _ => .ok [], 0⟩

/-- C4 counterexample.  `process_query` does not catch every exception:
when a fetched event lacks a `start` field, the `KeyError` raised while
rendering the grounding context escapes to the caller instead of being
converted into a reply string. -/
theorem spec_c4_counterexample :
    (process_query c4env "anything").1 = .error (.keyError "start") ∧
    ∀ r : String, (process_query c4env "anything").1 ≠ .ok r := by
  refine ⟨rfl, ?_⟩
  intro r h
  rw [show (process_query c4env "anything").1 = .error (.keyError "start") from rfl] at h
  simp at h

/-- C4 as amended.  `process_query` returns a reply string (never an
escaping exception) provided every event the gateway returns renders
without raising — in particular whenever each fetched event carries a
`start` field; the create branch's own exceptions are caught by its
`try`, but a formatting exception from the context fetch or the
fast-path fetch escapes (see the counterexample). -/
theorem spec_c4_no_raise_amended (env : Env) (q : String)
    (h0 : allLinesOk (list_events (env.listResp 0)).1 = true)
    (h1 : allLinesOk (list_events (env.listResp 1)).1 = true) :
    ∃ r, (process_query env q).1 = .ok r := by
  obtain ⟨ctx, hctx⟩ := calendarContext_ok_exists _ h0
  by_cases hk : fastKeyword (lowerStr q) = true
  · rw [process_query_fast env q ctx hctx hk]
    exact listReply_ok_exists _ h1
  · have hk2 : fastKeyword (lowerStr q) = false := by
      cases hv : fastKeyword (lowerStr q) with
      | true => exact absurd hv hk
      | false => rfl
    simp only [process_query, hctx, hk2]
    by_cases hact : actionIsCreate (parse_calendar_command env 0 q ctx) = true
    · simp [hact]
    · have hact2 : actionIsCreate (parse_calendar_command env 0 q ctx) = false := by
        cases hv : actionIsCreate (parse_calendar_command env 0 q ctx) with
        | true => exact absurd hv hact
        | false => rfl
      simp only [hact2]
      cases hclar : dGet (parse_calendar_command env 0 q ctx) "clarification_needed" with
      | some v =>
        by_cases ht : truthy v = true <;> simp [hclar, ht]
      | none => simp [hclar]

/-- C4 amended witness: a well-formed environment on which
`process_query` returns a reply. -/
theorem spec_c4_no_raise_amended_witness :
    allLinesOk (list_events ((⟨fun _ => .ok [], fun _ => .ok "", fun _ => .ok [], 0⟩ : Env).listResp 0)).1 = true ∧
    ∃ r, (process_query ⟨fun _ => .ok [], fun _ => .ok "", fun _ => .ok [], 0⟩ "hello there").1 = .ok r :=
  ⟨rfl, spec_c4_no_raise_amended ⟨fun _ => .ok [], fun _ => .ok "", fun _ => .ok [], 0⟩
    "hello there" rfl rfl⟩

/-- C6 counterexample environment: an utterance that misses the fast
path and parses to a create intent. -/
def c6env : Env :=
  ⟨fun _ => .ok [], fun _ => .ok "\x7b\"action\": \"create\"\x7d",
   fun _ => .ok [("id", .str "x")], 0⟩

/-- C6 counterexample.  A create-branch run performs three blocking
remote calls — the context fetch, the oracle's intent-parsing call, and
the gateway insert — exceeding the claimed maximum of two. -/
theorem spec_c6_counterexample :
    totalRemoteCalls (process_query c6env "arrange a sync").2 = 3 ∧
    ¬ (totalRemoteCalls (process_query c6env "arrange a sync").2 ≤ 2) := by
  constructor
  · rfl
  · rw [show totalRemoteCalls (process_query c6env "arrange a sync").2 = 3 from rfl]
    decide

/-- C6 as amended.  Every `process_query` invocation performs at least
one and at most three sequential blocking remote calls (list fetches,
completion calls and the gateway insert combined): one when the
context formatting raises, two on the fast path and the clarification
path, three on the create path and the conversational fallback. -/
theorem spec_c6_remote_call_bounds_amended (env : Env) (q : String) :
    1 ≤ totalRemoteCalls (process_query env q).2 ∧
    totalRemoteCalls (process_query env q).2 ≤ 3 := by
  cases hc : calendarContext (list_events (env.listResp 0)).1 with
  | error e =>
    rw [process_query_error env q e hc]
    exact ⟨by simp [totalRemoteCalls], by simp [totalRemoteCalls]⟩
  | ok ctx =>
    by_cases hk : fastKeyword (lowerStr q) = true
    · rw [process_query_fast env q ctx hc hk]
      exact ⟨by simp [totalRemoteCalls], by simp [totalRemoteCalls]⟩
    · have hk2 : fastKeyword (lowerStr q) = false := by
        cases hv : fastKeyword (lowerStr q) with
        | true => exact absurd hv hk
        | false => rfl
      simp only [process_query, hc, hk2]
      by_cases hact : actionIsCreate (parse_calendar_command env 0 q ctx) = true
      · simp [hact, totalRemoteCalls]
      · have hact2 : actionIsCreate (parse_calendar_command env 0 q ctx) = false := by
          cases hv : actionIsCreate (parse_calendar_command env 0 q ctx) with
          | true => exact absurd hv hact
          | false => rfl
        simp only [hact2]
        cases hclar : dGet (parse_calendar_command env 0 q ctx) "clarification_needed" with
        | some v =>
          by_cases ht : truthy v = true <;> simp [hclar, ht, totalRemoteCalls]
        | none => simp [hclar, totalRemoteCalls]
